import Mathlib

/-!
Verification of the JpegToRelief core pipeline.

The repository contains two JavaScript variants of the same pipeline:
`src/docs/app.js` (the primary web app) and `src/unnamed/part_000` (a
second web variant with a 3-D preview).  The core consists of

* `computeThicknessMap` (app.js lines 159-217): resample the image to
  W x H via a canvas, convert each resampled RGBA pixel to linear
  luminance, tone-map it, and write a physical thickness value (mm)
  into a row-major `Float32Array(W * H)`, applying flipX/flipY in the
  index space of the output array;
* `buildBinarySTL` (app.js lines 241-353, part_000 lines 256-301):
  serialize the thickness field as a binary STL byte stream: an
  80-byte zero header, a 4-byte little-endian unsigned 32-bit triangle
  count at offset 80, then one 50-byte record per triangle (12 bytes
  of zero normal, 36 bytes of vertex coordinates, 2 bytes attribute).

JavaScript numbers are modelled by real numbers; the RGBA byte array
returned by `getImageData` is modelled as a function from byte index
to natural number; the browser resampling filter (canvas `drawImage`)
is external to the repository, so the model quantifies over the
resampled pixel data.  `DataView.setUint32` reduces its argument
modulo 2 ^ 32, which the model keeps explicitly.  A 50-byte triangle
record is modelled as a `Tri`: three vertices whose z coordinates come
from reads of the thickness array; a read out of bounds models the
JavaScript `undefined` (serialized as NaN) and is a `none`.
-/

set_option maxHeartbeats 1000000

namespace JpegToRelief

/-- Parameter record assembled by `getParams` (app.js lines 84-101).
`widthPx` is passed separately since the claims quantify over it. -/
structure TParams where
  widthMm : ℝ
  baseMm : ℝ
  reliefMm : ℝ
  blackCut : ℝ
  whiteCut : ℝ
  toneGamma : ℝ
  mapInvert : Bool
  flipX : Bool
  flipY : Bool

/-- Piecewise sRGB decoding, app.js lines 219-221:
`(u <= 0.04045) ? (u / 12.92) : Math.pow((u + 0.055) / 1.055, 2.4)`. -/
noncomputable def srgbToLinear (u : ℝ) : ℝ :=
  if u ≤ 0.04045 then u / 12.92 else ((u + 0.055) / 1.055) ^ (2.4 : ℝ)

/-- Reciprocal of the clip window, app.js line 175:
`invRange = 1 / Math.max(1e-9, whiteCut - blackCut)`. -/
noncomputable def invRangeOf (p : TParams) : ℝ :=
  1 / max 1e-9 (p.whiteCut - p.blackCut)

/-- Rec.709 luminance of the resampled pixel `(x, y)`, app.js lines
184-194: the RGBA byte array is read at `(y*W+x)*4 + 0,1,2`, each byte
is divided by 255 and decoded, and the three linear channels are
weighted `0.2126, 0.7152, 0.0722`.  The alpha byte at `(y*W+x)*4+3` is
never read. -/
noncomputable def lumY (data : ℕ → ℕ) (W x y : ℕ) : ℝ :=
  0.2126 * srgbToLinear ((data ((y * W + x) * 4) : ℝ) / 255) +
  0.7152 * srgbToLinear ((data ((y * W + x) * 4 + 1) : ℝ) / 255) +
  0.0722 * srgbToLinear ((data ((y * W + x) * 4 + 2) : ℝ) / 255)

/-- Clip-and-renormalize step, app.js line 197:
`Y = Math.max(0, Math.min(1, (Y - blackCut) * invRange))`. -/
noncomputable def clipY (p : TParams) (Y : ℝ) : ℝ :=
  max 0 (min 1 ((Y - p.blackCut) * invRangeOf p))

/-- Tone curve, app.js lines 200-202:
`if (Math.abs(toneGamma - 1.0) > 1e-9) Y = Math.pow(Y, 1.0 / toneGamma)`. -/
noncomputable def toneY (p : TParams) (Y : ℝ) : ℝ :=
  if 1e-9 < |p.toneGamma - 1| then Y ^ ((1 : ℝ) / p.toneGamma) else Y

/-- Thickness computed in loop iteration `(x, y)`, app.js lines
184-205: `v = mapInvert ? (1 - Y) : Y` and `t = baseMm + reliefMm * v`. -/
noncomputable def pixelT (data : ℕ → ℕ) (p : TParams) (W x y : ℕ) : ℝ :=
  let Y := toneY p (clipY p (lumY data W x y))
  p.baseMm + p.reliefMm * (if p.mapInvert then 1 - Y else Y)

/-- Index flip used at the write position, app.js lines 208-210:
`if (p.flipX) ox = (W - 1 - ox)` and similarly for y. -/
def flipIdx (flip : Bool) (n i : ℕ) : ℕ :=
  if flip then n - 1 - i else i

/-- Write position of iteration `(x, y)`, app.js line 212:
`thickness[oy * W + ox] = t`. -/
def outIdx (p : TParams) (W H x y : ℕ) : ℕ :=
  flipIdx p.flipY H y * W + flipIdx p.flipX W x

/-- Row-major iteration order of the nested loops, app.js lines
182-183: `for (y = 0; y < H; y++) for (x = 0; x < W; x++)`. -/
def gridIdx (W H : ℕ) : List (ℕ × ℕ) :=
  (List.range H).flatMap fun y => (List.range W).map fun x => (x, y)

/-- The thickness field built by `computeThicknessMap`, app.js lines
171-216, modelled as the fold of the per-pixel writes over the
`Float32Array(W * H)` (zero-initialised, as in JavaScript). -/
noncomputable def computeThicknessMap (data : ℕ → ℕ) (p : TParams) (W H : ℕ) : ℕ → ℝ :=
  (gridIdx W H).foldl
    (fun st xy => Function.update st (outIdx p W H xy.1 xy.2) (pixelT data p W xy.1 xy.2))
    (fun _ => 0)

/-- Requested resample width after clamping, app.js line 92:
`widthPx: Math.max(10, Math.floor(numberVal("widthPx", 600)))`. -/
noncomputable def widthPxParam (raw : ℝ) : ℤ :=
  max 10 ⌊raw⌋

/-- Derived output height, app.js line 162:
`H = Math.max(1, Math.round(img.height * (W / img.width)))`. -/
noncomputable def derivedH (W0 H0 W : ℕ) : ℕ :=
  max 1 (round ((H0 : ℝ) * ((W : ℝ) / (W0 : ℝ)))).toNat

/-- Vertex of a serialized triangle: three little-endian 32-bit floats.
The z coordinate of a top-surface vertex is a read of the thickness
array; `none` models the JavaScript `undefined` produced by an
out-of-bounds `Float32Array` read (serialized as NaN). -/
structure Vec3 where
  x : ℝ
  y : ℝ
  z : Option ℝ

/-- One 50-byte STL triangle record (12 bytes normal, three 12-byte
vertices, 2-byte attribute).  In both source variants the normal and
the attribute bytes are identically zero (app.js lines 268-284 write
zeros; part_000 line 268 skips the 12 normal bytes of the
zero-initialised buffer), so only the vertices are modelled. -/
structure Tri where
  a : Vec3
  b : Vec3
  c : Vec3

/-- True when all three z coordinates of the record come from in-range
thickness reads (no NaN in the serialized bytes). -/
def Tri.realZ (t : Tri) : Bool :=
  t.a.z.isSome && t.b.z.isSome && t.c.z.isSome

/-- Result of `buildBinarySTL`: the value stored by
`view.setUint32(80, count, true)` (reduced modulo 2 ^ 32 by JavaScript
ToUint32), the byte length of the returned buffer, and the emitted
50-byte triangle records in order. -/
structure STLOutput where
  countField : ℕ
  byteLength : ℕ
  tris : List Tri

/-- Thickness read used for top-surface z, app.js line 245 and
part_000 line 259: `thickness[y * W + x]`. -/
def vzTop (t : List ℝ) (W x y : ℕ) : Option ℝ :=
  t.get? (y * W + x)

namespace App

/-- Grid x coordinate, app.js line 243: `vx = (x) => (W - 1 - x) * pxMm`. -/
noncomputable def vx (pxMm : ℝ) (W x : ℕ) : ℝ :=
  ((W - 1 - x : ℕ) : ℝ) * pxMm

/-- Grid y coordinate, app.js line 244: `vy = (y) => y * pxMm`. -/
noncomputable def vy (pxMm : ℝ) (y : ℕ) : ℝ :=
  (y : ℝ) * pxMm

/-- Top-surface triangles, app.js lines 289-299: per cell the two
records `(a, c, b)` and `(b, c, d)`. -/
noncomputable def topList (t : List ℝ) (pxMm : ℝ) (W H : ℕ) : List Tri :=
  (List.range (H - 1)).flatMap fun y => (List.range (W - 1)).flatMap fun x =>
    [⟨⟨vx pxMm W x, vy pxMm y, vzTop t W x y⟩,
      ⟨vx pxMm W x, vy pxMm (y + 1), vzTop t W x (y + 1)⟩,
      ⟨vx pxMm W (x + 1), vy pxMm y, vzTop t W (x + 1) y⟩⟩,
     ⟨⟨vx pxMm W (x + 1), vy pxMm y, vzTop t W (x + 1) y⟩,
      ⟨vx pxMm W x, vy pxMm (y + 1), vzTop t W x (y + 1)⟩,
      ⟨vx pxMm W (x + 1), vy pxMm (y + 1), vzTop t W (x + 1) (y + 1)⟩⟩]

/-- Bottom-surface triangles at z = 0, app.js lines 302-312: per cell
`(a, b, c)` and `(b, d, c)`. -/
noncomputable def bottomList (pxMm : ℝ) (W H : ℕ) : List Tri :=
  (List.range (H - 1)).flatMap fun y => (List.range (W - 1)).flatMap fun x =>
    [⟨⟨vx pxMm W x, vy pxMm y, some 0⟩,
      ⟨vx pxMm W (x + 1), vy pxMm y, some 0⟩,
      ⟨vx pxMm W x, vy pxMm (y + 1), some 0⟩⟩,
     ⟨⟨vx pxMm W (x + 1), vy pxMm y, some 0⟩,
      ⟨vx pxMm W (x + 1), vy pxMm (y + 1), some 0⟩,
      ⟨vx pxMm W x, vy pxMm (y + 1), some 0⟩⟩]

/-- Wall triangles along the edge y = 0, app.js lines 315-322. -/
noncomputable def edgeY0 (t : List ℝ) (pxMm : ℝ) (W : ℕ) : List Tri :=
  (List.range (W - 1)).flatMap fun x =>
    [⟨⟨vx pxMm W x, vy pxMm 0, vzTop t W x 0⟩,
      ⟨vx pxMm W (x + 1), vy pxMm 0, vzTop t W (x + 1) 0⟩,
      ⟨vx pxMm W x, vy pxMm 0, some 0⟩⟩,
     ⟨⟨vx pxMm W (x + 1), vy pxMm 0, vzTop t W (x + 1) 0⟩,
      ⟨vx pxMm W (x + 1), vy pxMm 0, some 0⟩,
      ⟨vx pxMm W x, vy pxMm 0, some 0⟩⟩]

/-- Wall triangles along the edge y = H - 1, app.js lines 324-332. -/
noncomputable def edgeYH (t : List ℝ) (pxMm : ℝ) (W H : ℕ) : List Tri :=
  (List.range (W - 1)).flatMap fun x =>
    [⟨⟨vx pxMm W (x + 1), vy pxMm (H - 1), vzTop t W (x + 1) (H - 1)⟩,
      ⟨vx pxMm W x, vy pxMm (H - 1), vzTop t W x (H - 1)⟩,
      ⟨vx pxMm W x, vy pxMm (H - 1), some 0⟩⟩,
     ⟨⟨vx pxMm W x, vy pxMm (H - 1), some 0⟩,
      ⟨vx pxMm W (x + 1), vy pxMm (H - 1), some 0⟩,
      ⟨vx pxMm W (x + 1), vy pxMm (H - 1), vzTop t W (x + 1) (H - 1)⟩⟩]

/-- Wall triangles along the edge x = 0, app.js lines 334-341. -/
noncomputable def edgeX0 (t : List ℝ) (pxMm : ℝ) (W H : ℕ) : List Tri :=
  (List.range (H - 1)).flatMap fun y =>
    [⟨⟨vx pxMm W 0, vy pxMm (y + 1), vzTop t W 0 (y + 1)⟩,
      ⟨vx pxMm W 0, vy pxMm y, vzTop t W 0 y⟩,
      ⟨vx pxMm W 0, vy pxMm y, some 0⟩⟩,
     ⟨⟨vx pxMm W 0, vy pxMm y, some 0⟩,
      ⟨vx pxMm W 0, vy pxMm (y + 1), some 0⟩,
      ⟨vx pxMm W 0, vy pxMm (y + 1), vzTop t W 0 (y + 1)⟩⟩]

/-- Wall triangles along the edge x = W - 1, app.js lines 343-350. -/
noncomputable def edgeXW (t : List ℝ) (pxMm : ℝ) (W H : ℕ) : List Tri :=
  (List.range (H - 1)).flatMap fun y =>
    [⟨⟨vx pxMm W (W - 1), vy pxMm y, vzTop t W (W - 1) y⟩,
      ⟨vx pxMm W (W - 1), vy pxMm (y + 1), vzTop t W (W - 1) (y + 1)⟩,
      ⟨vx pxMm W (W - 1), vy pxMm y, some 0⟩⟩,
     ⟨⟨vx pxMm W (W - 1), vy pxMm (y + 1), vzTop t W (W - 1) (y + 1)⟩,
      ⟨vx pxMm W (W - 1), vy pxMm (y + 1), some 0⟩,
      ⟨vx pxMm W (W - 1), vy pxMm y, some 0⟩⟩]

/-- The serializer of app.js lines 241-353.  The count written to the
4-byte field at offset 80 is computed up front (lines 251-254) and
stored by `setUint32` modulo 2 ^ 32; the buffer is allocated with
`new ArrayBuffer(84 + triCount * 50)` (line 257) and returned whole;
the records are emitted top, bottom, then the four walls.  The source
performs no validation of `W`, `H` or the array length and never
throws, so the model is a total function. -/
noncomputable def buildBinarySTL (t : List ℝ) (pxMm : ℝ) (W H : ℕ) : STLOutput :=
  let topTris := (W - 1) * (H - 1) * 2
  let bottomTris := topTris
  let sideTris := ((W - 1) * 2 + (H - 1) * 2) * 2
  let triCount := topTris + bottomTris + sideTris
  ⟨triCount % 2 ^ 32, 84 + triCount * 50,
   topList t pxMm W H ++ bottomList pxMm W H ++ edgeY0 t pxMm W ++
     edgeYH t pxMm W H ++ edgeX0 t pxMm W H ++ edgeXW t pxMm W H⟩

end App

namespace Web

/-- Grid x coordinate, part_000 line 257: `vx = (x) => x * pxMm`. -/
noncomputable def vx (pxMm : ℝ) (x : ℕ) : ℝ :=
  (x : ℝ) * pxMm

/-- Grid y coordinate, part_000 line 258: `vy = (y) => (H - 1 - y) * pxMm`. -/
noncomputable def vy (pxMm : ℝ) (H y : ℕ) : ℝ :=
  ((H - 1 - y : ℕ) : ℝ) * pxMm

/-- Per-cell records, part_000 lines 275-284: two top triangles then
two bottom triangles for each interior cell. -/
noncomputable def cellList (t : List ℝ) (pxMm : ℝ) (W H : ℕ) : List Tri :=
  (List.range (H - 1)).flatMap fun y => (List.range (W - 1)).flatMap fun x =>
    [⟨⟨vx pxMm x, vy pxMm H y, vzTop t W x y⟩,
      ⟨vx pxMm x, vy pxMm H (y + 1), vzTop t W x (y + 1)⟩,
      ⟨vx pxMm (x + 1), vy pxMm H y, vzTop t W (x + 1) y⟩⟩,
     ⟨⟨vx pxMm (x + 1), vy pxMm H y, vzTop t W (x + 1) y⟩,
      ⟨vx pxMm x, vy pxMm H (y + 1), vzTop t W x (y + 1)⟩,
      ⟨vx pxMm (x + 1), vy pxMm H (y + 1), vzTop t W (x + 1) (y + 1)⟩⟩,
     ⟨⟨vx pxMm x, vy pxMm H y, some 0⟩,
      ⟨vx pxMm (x + 1), vy pxMm H y, some 0⟩,
      ⟨vx pxMm x, vy pxMm H (y + 1), some 0⟩⟩,
     ⟨⟨vx pxMm (x + 1), vy pxMm H y, some 0⟩,
      ⟨vx pxMm (x + 1), vy pxMm H (y + 1), some 0⟩,
      ⟨vx pxMm x, vy pxMm H (y + 1), some 0⟩⟩]

/-- Wall records along y = 0 and y = H - 1, part_000 lines 286-291:
four triangles per boundary x. -/
noncomputable def sideX (t : List ℝ) (pxMm : ℝ) (W H : ℕ) : List Tri :=
  (List.range (W - 1)).flatMap fun x =>
    [⟨⟨vx pxMm x, vy pxMm H 0, vzTop t W x 0⟩,
      ⟨vx pxMm (x + 1), vy pxMm H 0, vzTop t W (x + 1) 0⟩,
      ⟨vx pxMm x, vy pxMm H 0, some 0⟩⟩,
     ⟨⟨vx pxMm (x + 1), vy pxMm H 0, vzTop t W (x + 1) 0⟩,
      ⟨vx pxMm (x + 1), vy pxMm H 0, some 0⟩,
      ⟨vx pxMm x, vy pxMm H 0, some 0⟩⟩,
     ⟨⟨vx pxMm x, vy pxMm H (H - 1), vzTop t W x (H - 1)⟩,
      ⟨vx pxMm x, vy pxMm H (H - 1), some 0⟩,
      ⟨vx pxMm (x + 1), vy pxMm H (H - 1), vzTop t W (x + 1) (H - 1)⟩⟩,
     ⟨⟨vx pxMm (x + 1), vy pxMm H (H - 1), vzTop t W (x + 1) (H - 1)⟩,
      ⟨vx pxMm x, vy pxMm H (H - 1), some 0⟩,
      ⟨vx pxMm (x + 1), vy pxMm H (H - 1), some 0⟩⟩]

/-- Wall records along x = 0 and x = W - 1, part_000 lines 292-297:
four triangles per boundary y. -/
noncomputable def sideY (t : List ℝ) (pxMm : ℝ) (W H : ℕ) : List Tri :=
  (List.range (H - 1)).flatMap fun y =>
    [⟨⟨vx pxMm 0, vy pxMm H y, vzTop t W 0 y⟩,
      ⟨vx pxMm 0, vy pxMm H y, some 0⟩,
      ⟨vx pxMm 0, vy pxMm H (y + 1), vzTop t W 0 (y + 1)⟩⟩,
     ⟨⟨vx pxMm 0, vy pxMm H (y + 1), vzTop t W 0 (y + 1)⟩,
      ⟨vx pxMm 0, vy pxMm H y, some 0⟩,
      ⟨vx pxMm 0, vy pxMm H (y + 1), some 0⟩⟩,
     ⟨⟨vx pxMm (W - 1), vy pxMm H y, vzTop t W (W - 1) y⟩,
      ⟨vx pxMm (W - 1), vy pxMm H (y + 1), vzTop t W (W - 1) (y + 1)⟩,
      ⟨vx pxMm (W - 1), vy pxMm H y, some 0⟩⟩,
     ⟨⟨vx pxMm (W - 1), vy pxMm H (y + 1), vzTop t W (W - 1) (y + 1)⟩,
      ⟨vx pxMm (W - 1), vy pxMm H (y + 1), some 0⟩,
      ⟨vx pxMm (W - 1), vy pxMm H y, some 0⟩⟩]

/-- The serializer of part_000 lines 256-301.  The count is
accumulated dynamically (`count++` per record), written to offset 80
by `setUint32` (modulo 2 ^ 32), and the over-allocated buffer is
trimmed with `buf.slice(0, off)` where `off = 84 + 50 * count`.  No
validation is performed. -/
noncomputable def buildBinarySTL (t : List ℝ) (pxMm : ℝ) (W H : ℕ) : STLOutput :=
  let tris := cellList t pxMm W H ++ sideX t pxMm W H ++ sideY t pxMm W H
  ⟨tris.length % 2 ^ 32, 84 + 50 * tris.length, tris⟩

end Web

/-! Helper lemmas about the write loop of `computeThicknessMap`. -/

theorem flipIdx_lt {f : Bool} {n i : ℕ} (h : i < n) : flipIdx f n i < n := by
  unfold flipIdx
  cases f <;> simp <;> omega

theorem flipIdx_flipIdx {f : Bool} {n i : ℕ} (h : i < n) :
    flipIdx f n (flipIdx f n i) = i := by
  unfold flipIdx
  cases f <;> simp <;> omega

theorem mem_gridIdx {W H x y : ℕ} : (x, y) ∈ gridIdx W H ↔ x < W ∧ y < H := by
  simp only [gridIdx, List.mem_flatMap, List.mem_map, List.mem_range, Prod.mk.injEq]
  constructor
  · rintro ⟨a, ha, b, hb, hbx, hay⟩
    subst hbx; subst hay
    exact ⟨hb, ha⟩
  · rintro ⟨hx, hy⟩
    exact ⟨y, hy, x, hx, rfl, rfl⟩

theorem foldl_update_of_ne {β : Type} (l : List β) (k : β → ℕ) (v : β → ℝ)
    (init : ℕ → ℝ) (j : ℕ) (h : ∀ b ∈ l, k b ≠ j) :
    l.foldl (fun st b => Function.update st (k b) (v b)) init j = init j := by
  induction l generalizing init with
  | nil => rfl
  | cons c rest ih =>
    simp only [List.foldl_cons]
    rw [ih _ fun b hb => h b (List.mem_cons_of_mem _ hb)]
    exact Function.update_noteq (h c (List.mem_cons_self _ _)).symm _ _

theorem foldl_update_of_uniq {β : Type} (l : List β) (k : β → ℕ) (v : β → ℝ)
    (init : ℕ → ℝ) (j : ℕ) (a : β) (ha : a ∈ l) (hk : k a = j)
    (huniq : ∀ b ∈ l, k b = j → b = a) :
    l.foldl (fun st b => Function.update st (k b) (v b)) init j = v a := by
  induction l generalizing init with
  | nil => cases ha
  | cons c rest ih =>
    by_cases hmem : a ∈ rest
    · exact ih _ hmem fun b hb hbj => huniq b (List.mem_cons_of_mem _ hb) hbj
    · have hac : a = c := by
        rcases List.mem_cons.mp ha with h1 | h1
        · exact h1
        · exact absurd h1 hmem
      subst hac
      simp only [List.foldl_cons]
      rw [foldl_update_of_ne]
      · rw [hk, Function.update_same]
      · intro b hb hbj
        exact absurd (huniq b (List.mem_cons_of_mem _ hb) hbj ▸ hb) hmem

theorem rowmajor_inj {W m r oy ox : ℕ} (hr : r < W) (hox : ox < W)
    (h : m * W + r = oy * W + ox) : m = oy ∧ r = ox := by
  have hW : 0 < W := Nat.lt_of_le_of_lt (Nat.zero_le _) hr
  have hrx : r = ox := by
    have h1 : (m * W + r) % W = r := by
      rw [mul_comm, Nat.mul_add_mod, Nat.mod_eq_of_lt hr]
    have h2 : (oy * W + ox) % W = ox := by
      rw [mul_comm, Nat.mul_add_mod, Nat.mod_eq_of_lt hox]
    rw [h, h2] at h1
    exact h1.symm
  refine ⟨?_, hrx⟩
  subst hrx
  have h3 : m * W = oy * W := by omega
  exact Nat.eq_of_mul_eq_mul_right hW h3

/-- Value at a row-major position of the built field: the write loop
stores, at output index `oy * W + ox`, the thickness computed for the
source pixel obtained by undoing the flips.  Each output index inside
the grid is written exactly once. -/
theorem computeThicknessMap_apply (data : ℕ → ℕ) (p : TParams) {W H ox oy : ℕ}
    (hx : ox < W) (hy : oy < H) :
    computeThicknessMap data p W H (oy * W + ox) =
      pixelT data p W (flipIdx p.flipX W ox) (flipIdx p.flipY H oy) := by
  unfold computeThicknessMap
  refine foldl_update_of_uniq (gridIdx W H)
    (fun xy => outIdx p W H xy.1 xy.2) (fun xy => pixelT data p W xy.1 xy.2)
    _ _ (flipIdx p.flipX W ox, flipIdx p.flipY H oy) ?_ ?_ ?_
  · exact mem_gridIdx.mpr ⟨flipIdx_lt hx, flipIdx_lt hy⟩
  · show flipIdx p.flipY H (flipIdx p.flipY H oy) * W +
        flipIdx p.flipX W (flipIdx p.flipX W ox) = oy * W + ox
    rw [flipIdx_flipIdx hy, flipIdx_flipIdx hx]
  · rintro ⟨bx, byy⟩ hmem hout
    obtain ⟨hbx, hby⟩ := mem_gridIdx.mp hmem
    have hout2 : flipIdx p.flipY H byy * W + flipIdx p.flipX W bx = oy * W + ox := hout
    obtain ⟨hm, hr⟩ := rowmajor_inj (flipIdx_lt hbx) hx hout2
    have e1 : bx = flipIdx p.flipX W ox := by rw [← hr, flipIdx_flipIdx hbx]
    have e2 : byy = flipIdx p.flipY H oy := by rw [← hm, flipIdx_flipIdx hby]
    rw [e1, e2]

/-- Indices at or beyond the allocated length `W * H` are never
written and keep the zero initialisation of the `Float32Array`. -/
theorem computeThicknessMap_oob (data : ℕ → ℕ) (p : TParams) {W H j : ℕ}
    (hj : W * H ≤ j) : computeThicknessMap data p W H j = 0 := by
  unfold computeThicknessMap
  rw [foldl_update_of_ne]
  intro b hb
  obtain ⟨bx, byy⟩ := b
  obtain ⟨hbx, hby⟩ := mem_gridIdx.mp hb
  have h1 : flipIdx p.flipY H byy < H := flipIdx_lt hby
  have h2 : flipIdx p.flipX W bx < W := flipIdx_lt hbx
  have h3 : flipIdx p.flipY H byy * W + flipIdx p.flipX W bx < H * W := by
    calc flipIdx p.flipY H byy * W + flipIdx p.flipX W bx
        < flipIdx p.flipY H byy * W + W := by omega
      _ = (flipIdx p.flipY H byy + 1) * W := by ring
      _ ≤ H * W := Nat.mul_le_mul_right W (Nat.succ_le_of_lt h1)
  show flipIdx p.flipY H byy * W + flipIdx p.flipX W bx ≠ j
  rw [mul_comm] at hj
  omega

/-! Helper lemmas for the per-pixel thickness range. -/

theorem clipY_mem (p : TParams) (Y : ℝ) : 0 ≤ clipY p Y ∧ clipY p Y ≤ 1 := by
  unfold clipY
  exact ⟨le_max_left 0 _, max_le (by norm_num) (min_le_left _ _)⟩

theorem toneY_mem (p : TParams) {Y : ℝ} (hg : 0 < p.toneGamma) (h0 : 0 ≤ Y)
    (h1 : Y ≤ 1) : 0 ≤ toneY p Y ∧ toneY p Y ≤ 1 := by
  unfold toneY
  split
  · exact ⟨Real.rpow_nonneg h0 _,
      Real.rpow_le_one h0 h1 (div_nonneg zero_le_one hg.le)⟩
  · exact ⟨h0, h1⟩

theorem pixelT_mem (data : ℕ → ℕ) (p : TParams) (W x y : ℕ)
    (hb : 0 ≤ p.baseMm) (hr : 0 ≤ p.reliefMm) (hg : 0 < p.toneGamma) :
    p.baseMm ≤ pixelT data p W x y ∧ pixelT data p W x y ≤ p.baseMm + p.reliefMm := by
  unfold pixelT
  obtain ⟨hc0, hc1⟩ := clipY_mem p (lumY data W x y)
  obtain ⟨ht0, ht1⟩ := toneY_mem p hg hc0 hc1
  set Y := toneY p (clipY p (lumY data W x y)) with hY
  have hv0 : 0 ≤ (if p.mapInvert then 1 - Y else Y) := by split <;> linarith
  have hv1 : (if p.mapInvert then 1 - Y else Y) ≤ 1 := by split <;> linarith
  have hm0 : 0 ≤ p.reliefMm * (if p.mapInvert then 1 - Y else Y) := mul_nonneg hr hv0
  have hm1 : p.reliefMm * (if p.mapInvert then 1 - Y else Y) ≤ p.reliefMm :=
    mul_le_of_le_one_right hr hv1
  constructor <;> simp only [] <;> linarith

/-- C1: for every resampled image and every valid parameter set
(baseMm ≥ 0, reliefMm ≥ 0, toneGamma > 0, blackCut < whiteCut), every
value stored in the thickness field built by `computeThicknessMap`
lies in the closed interval from baseMm to baseMm + reliefMm. -/
theorem claim1_thickness_range (data : ℕ → ℕ) (p : TParams) (W H j : ℕ)
    (hb : 0 ≤ p.baseMm) (hr : 0 ≤ p.reliefMm) (hg : 0 < p.toneGamma)
    (hcut : p.blackCut < p.whiteCut) (hj : j < W * H) :
    p.baseMm ≤ computeThicknessMap data p W H j ∧
      computeThicknessMap data p W H j ≤ p.baseMm + p.reliefMm := by
  have hW : 0 < W := by
    rcases Nat.eq_zero_or_pos W with h | h
    · subst h; simp at hj
    · exact h
  have hx : j % W < W := Nat.mod_lt _ hW
  have hy : j / W < H := (Nat.div_lt_iff_lt_mul hW).mpr (by rwa [mul_comm] at hj)
  have hj2 : (j / W) * W + j % W = j := by
    rw [mul_comm]
    exact Nat.div_add_mod j W
  rw [← hj2, computeThicknessMap_apply data p hx hy]
  exact pixelT_mem data p W _ _ hb hr hg

/-- C1 witness: concrete parameters and image instantiating the range
invariant. -/
theorem claim1_witness :
    (0 : ℝ) ≤ 1 ∧ (0 : ℝ) ≤ 2 ∧ (0 : ℝ) < 1 ∧ (0 : ℝ) < 1 ∧ 0 < 1 * 1 ∧
      ((1 : ℝ) ≤ computeThicknessMap (fun _ => 0)
          ⟨100, 1, 2, 0, 1, 1, false, false, false⟩ 1 1 0 ∧
        computeThicknessMap (fun _ => 0)
          ⟨100, 1, 2, 0, 1, 1, false, false, false⟩ 1 1 0 ≤ (1 : ℝ) + 2) :=
  ⟨by norm_num, by norm_num, by norm_num, by norm_num, by norm_num,
    claim1_thickness_range (fun _ => 0) ⟨100, 1, 2, 0, 1, 1, false, false, false⟩
      1 1 0 (by norm_num) (by norm_num) (by norm_num) (by norm_num) (by norm_num)⟩

/-! Shared concrete parameter sets for witnesses. -/

/-- Demonstration parameters with mapInvert = false. -/
def pDemo : TParams := ⟨100, 1, 2, 0, 1, 1, false, false, false⟩

/-- Demonstration parameters with mapInvert = true (the default). -/
def pDemoInv : TParams := ⟨100, 2, 3, 0, 1, 1, true, false, false⟩

theorem lumY_agree (data dataB : ℕ → ℕ) (W x y : ℕ)
    (hagree : ∀ k, k % 4 ≠ 3 → data k = dataB k) :
    lumY data W x y = lumY dataB W x y := by
  have h4 : ∀ i : ℕ, data (i * 4) = dataB (i * 4) ∧
      data (i * 4 + 1) = dataB (i * 4 + 1) ∧
      data (i * 4 + 2) = dataB (i * 4 + 2) := by
    intro i
    exact ⟨hagree _ (by omega), hagree _ (by omega), hagree _ (by omega)⟩
  unfold lumY
  rw [(h4 (y * W + x)).1, (h4 (y * W + x)).2.1, (h4 (y * W + x)).2.2]

theorem pixelT_agree (data dataB : ℕ → ℕ) (p : TParams) (W x y : ℕ)
    (hagree : ∀ k, k % 4 ≠ 3 → data k = dataB k) :
    pixelT data p W x y = pixelT dataB p W x y := by
  simp only [pixelT]
  rw [lumY_agree data dataB W x y hagree]

/-- C4: the luminance used for each resampled pixel is obtained by
normalizing R, G, B to the unit interval, decoding each channel with
the piecewise sRGB curve, and weighting them with the BT.709
coefficients; the alpha byte (index 3 mod 4) has no effect on the
thickness field. -/
theorem claim4_luminance (data dataB : ℕ → ℕ) (p : TParams) (W H : ℕ)
    (hagree : ∀ k, k % 4 ≠ 3 → data k = dataB k) :
    (∀ u : ℝ, srgbToLinear u =
        if u ≤ 0.04045 then u / 12.92 else ((u + 0.055) / 1.055) ^ (2.4 : ℝ)) ∧
    (∀ x y : ℕ, lumY data W x y =
        0.2126 * srgbToLinear ((data ((y * W + x) * 4) : ℝ) / 255) +
        0.7152 * srgbToLinear ((data ((y * W + x) * 4 + 1) : ℝ) / 255) +
        0.0722 * srgbToLinear ((data ((y * W + x) * 4 + 2) : ℝ) / 255)) ∧
    computeThicknessMap data p W H = computeThicknessMap dataB p W H := by
  refine ⟨fun u => rfl, fun x y => rfl, ?_⟩
  unfold computeThicknessMap
  apply List.foldl_ext
  intro st xy _
  rw [pixelT_agree data dataB p W xy.1 xy.2 hagree]

/-- C4 witness: two concrete rasters differing only in the alpha
bytes give the same thickness field. -/
theorem claim4_witness :
    (∀ k : ℕ, k % 4 ≠ 3 →
      (fun _ : ℕ => 0) k = (fun i : ℕ => if i % 4 = 3 then 7 else 0) k) ∧
    ((∀ u : ℝ, srgbToLinear u =
        if u ≤ 0.04045 then u / 12.92 else ((u + 0.055) / 1.055) ^ (2.4 : ℝ)) ∧
     (∀ x y : ℕ, lumY (fun _ : ℕ => 0) 2 x y =
        0.2126 * srgbToLinear (((0 : ℕ) : ℝ) / 255) +
        0.7152 * srgbToLinear (((0 : ℕ) : ℝ) / 255) +
        0.0722 * srgbToLinear (((0 : ℕ) : ℝ) / 255)) ∧
     computeThicknessMap (fun _ : ℕ => 0) pDemo 2 2 =
       computeThicknessMap (fun i : ℕ => if i % 4 = 3 then 7 else 0) pDemo 2 2) := by
  have h : ∀ k : ℕ, k % 4 ≠ 3 →
      (fun _ : ℕ => 0) k = (fun i : ℕ => if i % 4 = 3 then 7 else 0) k := by
    intro k hk
    simp [hk]
  exact ⟨h, claim4_luminance (fun _ : ℕ => 0) (fun i : ℕ => if i % 4 = 3 then 7 else 0)
    pDemo 2 2 h⟩

/-- C5: for every blackCut and whiteCut, also when the window is empty
or reversed, the clip step equals the clamped division by the guarded
range, the divisor is at least 1e-9, and in particular it is never
zero. -/
theorem claim5_clip (p : TParams) (Y : ℝ) :
    clipY p Y =
      min 1 (max 0 ((Y - p.blackCut) / max 1e-9 (p.whiteCut - p.blackCut))) ∧
    (1e-9 : ℝ) ≤ max 1e-9 (p.whiteCut - p.blackCut) ∧
    (0 : ℝ) < max 1e-9 (p.whiteCut - p.blackCut) := by
  refine ⟨?_, le_max_left _ _, lt_of_lt_of_le (by norm_num) (le_max_left _ _)⟩
  unfold clipY invRangeOf
  rw [mul_one_div, max_min_distrib_left,
    max_eq_right (by norm_num : (0 : ℝ) ≤ 1)]

/-- C6: the field built with flipX = true is the field built with
flipX = false read at the reversed x index (and symmetrically for
flipY); index reversal is an involution; and the value at an output
position is exactly the single pixel value written there, with the
flips applied at the write position inside the loop. -/
theorem claim6_flip (data : ℕ → ℕ) (p : TParams) (W H ox oy : ℕ)
    (hx : ox < W) (hy : oy < H) :
    computeThicknessMap data { p with flipX := true } W H (oy * W + ox) =
      computeThicknessMap data { p with flipX := false } W H (oy * W + (W - 1 - ox)) ∧
    computeThicknessMap data { p with flipY := true } W H (oy * W + ox) =
      computeThicknessMap data { p with flipY := false } W H ((H - 1 - oy) * W + ox) ∧
    W - 1 - (W - 1 - ox) = ox ∧ H - 1 - (H - 1 - oy) = oy ∧
    computeThicknessMap data p W H (oy * W + ox) =
      pixelT data p W (flipIdx p.flipX W ox) (flipIdx p.flipY H oy) := by
  have hx2 : W - 1 - ox < W := by omega
  have hy2 : H - 1 - oy < H := by omega
  refine ⟨?_, ?_, by omega, by omega, computeThicknessMap_apply data p hx hy⟩
  · rw [computeThicknessMap_apply data _ hx hy,
      computeThicknessMap_apply data _ hx2 hy]
    rfl
  · rw [computeThicknessMap_apply data _ hx hy,
      computeThicknessMap_apply data _ hx hy2]
    rfl

/-- C6 witness: the flip relation instantiated on a concrete 2 x 1
field. -/
theorem claim6_witness :
    0 < 2 ∧ 0 < 1 ∧
    (computeThicknessMap (fun _ : ℕ => 0) { pDemo with flipX := true } 2 1 (0 * 2 + 0) =
      computeThicknessMap (fun _ : ℕ => 0) { pDemo with flipX := false } 2 1
        (0 * 2 + (2 - 1 - 0)) ∧
     computeThicknessMap (fun _ : ℕ => 0) { pDemo with flipY := true } 2 1 (0 * 2 + 0) =
      computeThicknessMap (fun _ : ℕ => 0) { pDemo with flipY := false } 2 1
        ((1 - 1 - 0) * 2 + 0) ∧
     2 - 1 - (2 - 1 - 0) = 0 ∧ 1 - 1 - (1 - 1 - 0) = 0 ∧
     computeThicknessMap (fun _ : ℕ => 0) pDemo 2 1 (0 * 2 + 0) =
       pixelT (fun _ : ℕ => 0) pDemo 2 (flipIdx pDemo.flipX 2 0) (flipIdx pDemo.flipY 1 0)) :=
  ⟨by decide, by decide,
    claim6_flip (fun _ : ℕ => 0) pDemo 2 1 0 0 (by decide) (by decide)⟩

/-! Helper lemmas for the monochrome round-trip. -/

theorem srgbToLinear_one : srgbToLinear 1 = 1 := by
  unfold srgbToLinear
  have h : ((1 : ℝ) + 0.055) / 1.055 = 1 := by norm_num
  rw [if_neg (by norm_num), h, Real.one_rpow]

theorem srgbToLinear_zero : srgbToLinear 0 = 0 := by
  unfold srgbToLinear
  rw [if_pos (by norm_num)]
  norm_num

theorem clipY_unit (p : TParams) (Y : ℝ) (hbc : p.blackCut = 0)
    (hwc : p.whiteCut = 1) (h0 : 0 ≤ Y) (h1 : Y ≤ 1) : clipY p Y = Y := by
  unfold clipY invRangeOf
  rw [hbc, hwc]
  have h9 : max (1e-9 : ℝ) (1 - 0) = 1 := by
    rw [max_eq_right (by norm_num)]
    norm_num
  rw [h9]
  have hYe : (Y - 0) * ((1 : ℝ) / 1) = Y := by ring
  rw [hYe, min_eq_right h1, max_eq_right h0]

theorem toneY_unit (p : TParams) (Y : ℝ) (htg : p.toneGamma = 1) :
    toneY p Y = Y := by
  unfold toneY
  rw [htg]
  rw [if_neg (by norm_num)]

theorem pixelT_white (data : ℕ → ℕ) (p : TParams) (W x y : ℕ)
    (h255 : ∀ i, data (4 * i) = 255 ∧ data (4 * i + 1) = 255 ∧ data (4 * i + 2) = 255)
    (hinv : p.mapInvert = true) (hbc : p.blackCut = 0) (hwc : p.whiteCut = 1)
    (htg : p.toneGamma = 1) : pixelT data p W x y = p.baseMm := by
  have hl : lumY data W x y = 1 := by
    unfold lumY
    obtain ⟨h0, h1, h2⟩ := h255 (y * W + x)
    have e0 : data ((y * W + x) * 4) = 255 := by rw [mul_comm]; exact h0
    have e1 : data ((y * W + x) * 4 + 1) = 255 := by rw [mul_comm (y * W + x) 4]; exact h1
    have e2 : data ((y * W + x) * 4 + 2) = 255 := by rw [mul_comm (y * W + x) 4]; exact h2
    rw [e0, e1, e2]
    have h255r : ((255 : ℕ) : ℝ) / 255 = 1 := by norm_num
    rw [h255r, srgbToLinear_one]
    norm_num
  simp only [pixelT]
  rw [hl, clipY_unit p 1 hbc hwc (by norm_num) (by norm_num),
    toneY_unit p 1 htg, hinv]
  norm_num

theorem pixelT_black (data : ℕ → ℕ) (p : TParams) (W x y : ℕ)
    (h0s : ∀ i, data (4 * i) = 0 ∧ data (4 * i + 1) = 0 ∧ data (4 * i + 2) = 0)
    (hinv : p.mapInvert = true) (hbc : p.blackCut = 0) (hwc : p.whiteCut = 1)
    (htg : p.toneGamma = 1) : pixelT data p W x y = p.baseMm + p.reliefMm := by
  have hl : lumY data W x y = 0 := by
    unfold lumY
    obtain ⟨h0, h1, h2⟩ := h0s (y * W + x)
    have e0 : data ((y * W + x) * 4) = 0 := by rw [mul_comm]; exact h0
    have e1 : data ((y * W + x) * 4 + 1) = 0 := by rw [mul_comm (y * W + x) 4]; exact h1
    have e2 : data ((y * W + x) * 4 + 2) = 0 := by rw [mul_comm (y * W + x) 4]; exact h2
    rw [e0, e1, e2]
    have h0r : ((0 : ℕ) : ℝ) / 255 = 0 := by norm_num
    rw [h0r, srgbToLinear_zero]
    norm_num
  simp only [pixelT]
  rw [hl, clipY_unit p 0 hbc hwc (by norm_num) (by norm_num),
    toneY_unit p 0 htg, hinv]
  norm_num

/-- C7: with invert = true, blackCut = 0, whiteCut = 1, toneGamma = 1,
an all-white resampled raster yields the uniform field baseMm and an
all-black one the uniform field baseMm + reliefMm. -/
theorem claim7_monochrome (p : TParams) (dW dB : ℕ → ℕ) (W H : ℕ)
    (hinv : p.mapInvert = true) (hbc : p.blackCut = 0) (hwc : p.whiteCut = 1)
    (htg : p.toneGamma = 1)
    (hWhite : ∀ i, dW (4 * i) = 255 ∧ dW (4 * i + 1) = 255 ∧ dW (4 * i + 2) = 255)
    (hBlack : ∀ i, dB (4 * i) = 0 ∧ dB (4 * i + 1) = 0 ∧ dB (4 * i + 2) = 0) :
    ∀ j < W * H, computeThicknessMap dW p W H j = p.baseMm ∧
      computeThicknessMap dB p W H j = p.baseMm + p.reliefMm := by
  intro j hj
  have hW : 0 < W := by
    rcases Nat.eq_zero_or_pos W with h | h
    · subst h; simp at hj
    · exact h
  have hx : j % W < W := Nat.mod_lt _ hW
  have hy : j / W < H := (Nat.div_lt_iff_lt_mul hW).mpr (by rwa [mul_comm] at hj)
  have hj2 : (j / W) * W + j % W = j := by
    rw [mul_comm]
    exact Nat.div_add_mod j W
  rw [← hj2, computeThicknessMap_apply dW p hx hy,
    computeThicknessMap_apply dB p hx hy]
  exact ⟨pixelT_white dW p W _ _ hWhite hinv hbc hwc htg,
    pixelT_black dB p W _ _ hBlack hinv hbc hwc htg⟩

/-- C7 witness: a concrete 1 x 1 all-white and all-black raster under
the default-like parameters. -/
theorem claim7_witness :
    pDemoInv.mapInvert = true ∧ pDemoInv.blackCut = 0 ∧ pDemoInv.whiteCut = 1 ∧
    pDemoInv.toneGamma = 1 ∧
    (∀ j < 1 * 1, computeThicknessMap (fun _ : ℕ => 255) pDemoInv 1 1 j = pDemoInv.baseMm ∧
      computeThicknessMap (fun _ : ℕ => 0) pDemoInv 1 1 j =
        pDemoInv.baseMm + pDemoInv.reliefMm) :=
  ⟨rfl, rfl, rfl, rfl,
    claim7_monochrome pDemoInv (fun _ : ℕ => 255) (fun _ : ℕ => 0) 1 1 rfl rfl rfl rfl
      (fun _ => ⟨rfl, rfl, rfl⟩) (fun _ => ⟨rfl, rfl, rfl⟩)⟩

/-- C8: the resample width is the requested width floored and clamped
to at least 10; the derived height is round(H0 times W over W0)
clamped to at least 1, equivalently round of the quotient of the
products; and no write of the build loop leaves the allocated
`W * H` entries of the field. -/
theorem claim8_dimensions (raw : ℝ) (W0 H0 W H : ℕ) (data : ℕ → ℕ) (p : TParams)
    (j : ℕ) (hW0 : 1 ≤ W0) (hH0 : 1 ≤ H0) (hj : W * H ≤ j) :
    10 ≤ widthPxParam raw ∧
    (10 ≤ ⌊raw⌋ → widthPxParam raw = ⌊raw⌋) ∧
    derivedH W0 H0 W = max 1 (round (((H0 * W : ℕ) : ℝ) / (W0 : ℝ))).toNat ∧
    1 ≤ derivedH W0 H0 W ∧
    computeThicknessMap data p W H j = 0 := by
  refine ⟨?_, ?_, ?_, ?_, computeThicknessMap_oob data p hj⟩
  · unfold widthPxParam
    exact le_max_left _ _
  · intro h
    unfold widthPxParam
    exact max_eq_right h
  · unfold derivedH
    congr 2
    push_cast
    ring
  · unfold derivedH
    exact le_max_left _ _

/-- C8 witness: a 4 x 3 source image resampled at requested width 600
gives a 600-column field with derived height 450. -/
theorem claim8_witness :
    1 ≤ 4 ∧ 1 ≤ 3 ∧ 600 * 450 ≤ 600 * 450 ∧
    (10 ≤ widthPxParam 600 ∧
     (10 ≤ ⌊(600 : ℝ)⌋ → widthPxParam 600 = ⌊(600 : ℝ)⌋) ∧
     derivedH 4 3 600 = max 1 (round (((3 * 600 : ℕ) : ℝ) / (4 : ℝ))).toNat ∧
     1 ≤ derivedH 4 3 600 ∧
     computeThicknessMap (fun _ : ℕ => 0) pDemo 600 450 (600 * 450) = 0) :=
  ⟨by norm_num, by norm_num, le_refl _,
    claim8_dimensions 600 4 3 600 450 (fun _ : ℕ => 0) pDemo (600 * 450)
      (by norm_num) (by norm_num) (le_refl _)⟩

/-! Helper lemmas about the serialized triangle lists. -/

theorem length_flatMap_const {α β : Type} (l : List α) (f : α → List β) (k : ℕ)
    (h : ∀ a ∈ l, (f a).length = k) : (l.flatMap f).length = l.length * k := by
  induction l with
  | nil => simp
  | cons c rest ih =>
    simp only [List.flatMap_cons, List.length_append, List.length_cons]
    rw [h c (List.mem_cons_self _ _), ih fun a ha => h a (List.mem_cons_of_mem _ ha)]
    ring

theorem flatMap_const_nil {α β : Type} (l : List α) :
    (l.flatMap fun _ => ([] : List β)) = [] := by
  induction l with
  | nil => rfl
  | cons c rest ih => simpa using ih

theorem get?_isSome_of_lt {l : List ℝ} {n : ℕ} (h : n < l.length) :
    (l.get? n).isSome = true := by
  rw [List.get?_eq_getElem?, List.getElem?_eq_getElem h]
  rfl

theorem getElem?_isSome_of_lt {l : List ℝ} {n : ℕ} (h : n < l.length) :
    (l[n]?).isSome = true := by
  rw [List.getElem?_eq_getElem h]
  rfl

theorem topList_length (t : List ℝ) (px : ℝ) (W H : ℕ) :
    (App.topList t px W H).length = (H - 1) * ((W - 1) * 2) := by
  unfold App.topList
  rw [length_flatMap_const _ _ ((W - 1) * 2)]
  · rw [List.length_range]
  · intro a _
    rw [length_flatMap_const _ _ 2]
    · rw [List.length_range]
    · intro b _
      rfl

theorem bottomList_length (px : ℝ) (W H : ℕ) :
    (App.bottomList px W H).length = (H - 1) * ((W - 1) * 2) := by
  unfold App.bottomList
  rw [length_flatMap_const _ _ ((W - 1) * 2)]
  · rw [List.length_range]
  · intro a _
    rw [length_flatMap_const _ _ 2]
    · rw [List.length_range]
    · intro b _
      rfl

theorem edgeY0_length (t : List ℝ) (px : ℝ) (W : ℕ) :
    (App.edgeY0 t px W).length = (W - 1) * 2 := by
  unfold App.edgeY0
  rw [length_flatMap_const _ _ 2]
  · rw [List.length_range]
  · intro a _
    rfl

theorem edgeYH_length (t : List ℝ) (px : ℝ) (W H : ℕ) :
    (App.edgeYH t px W H).length = (W - 1) * 2 := by
  unfold App.edgeYH
  rw [length_flatMap_const _ _ 2]
  · rw [List.length_range]
  · intro a _
    rfl

theorem edgeX0_length (t : List ℝ) (px : ℝ) (W H : ℕ) :
    (App.edgeX0 t px W H).length = (H - 1) * 2 := by
  unfold App.edgeX0
  rw [length_flatMap_const _ _ 2]
  · rw [List.length_range]
  · intro a _
    rfl

theorem edgeXW_length (t : List ℝ) (px : ℝ) (W H : ℕ) :
    (App.edgeXW t px W H).length = (H - 1) * 2 := by
  unfold App.edgeXW
  rw [length_flatMap_const _ _ 2]
  · rw [List.length_range]
  · intro a _
    rfl

theorem app_tris_eq (t : List ℝ) (px : ℝ) (W H : ℕ) :
    (App.buildBinarySTL t px W H).tris =
      App.topList t px W H ++ App.bottomList px W H ++ App.edgeY0 t px W ++
        App.edgeYH t px W H ++ App.edgeX0 t px W H ++ App.edgeXW t px W H := rfl

theorem app_countField_eq (t : List ℝ) (px : ℝ) (W H : ℕ) :
    (App.buildBinarySTL t px W H).countField =
      ((W - 1) * (H - 1) * 2 + (W - 1) * (H - 1) * 2 +
        ((W - 1) * 2 + (H - 1) * 2) * 2) % 2 ^ 32 := rfl

theorem app_byteLength_eq (t : List ℝ) (px : ℝ) (W H : ℕ) :
    (App.buildBinarySTL t px W H).byteLength =
      84 + ((W - 1) * (H - 1) * 2 + (W - 1) * (H - 1) * 2 +
        ((W - 1) * 2 + (H - 1) * 2) * 2) * 50 := rfl

theorem app_formula_eq (W H : ℕ) :
    (W - 1) * (H - 1) * 2 + (W - 1) * (H - 1) * 2 +
        ((W - 1) * 2 + (H - 1) * 2) * 2 =
      4 * (W - 1) * (H - 1) + 4 * (W - 1) + 4 * (H - 1) := by
  ring

theorem app_tris_length (t : List ℝ) (px : ℝ) (W H : ℕ) :
    (App.buildBinarySTL t px W H).tris.length =
      4 * (W - 1) * (H - 1) + 4 * (W - 1) + 4 * (H - 1) := by
  rw [app_tris_eq]
  simp only [List.length_append]
  rw [topList_length, bottomList_length, edgeY0_length, edgeYH_length,
    edgeX0_length, edgeXW_length]
  ring

theorem cellList_length (t : List ℝ) (px : ℝ) (W H : ℕ) :
    (Web.cellList t px W H).length = (H - 1) * ((W - 1) * 4) := by
  unfold Web.cellList
  rw [length_flatMap_const _ _ ((W - 1) * 4)]
  · rw [List.length_range]
  · intro a _
    rw [length_flatMap_const _ _ 4]
    · rw [List.length_range]
    · intro b _
      rfl

theorem sideX_length (t : List ℝ) (px : ℝ) (W H : ℕ) :
    (Web.sideX t px W H).length = (W - 1) * 4 := by
  unfold Web.sideX
  rw [length_flatMap_const _ _ 4]
  · rw [List.length_range]
  · intro a _
    rfl

theorem sideY_length (t : List ℝ) (px : ℝ) (W H : ℕ) :
    (Web.sideY t px W H).length = (H - 1) * 4 := by
  unfold Web.sideY
  rw [length_flatMap_const _ _ 4]
  · rw [List.length_range]
  · intro a _
    rfl

theorem web_tris_eq (t : List ℝ) (px : ℝ) (W H : ℕ) :
    (Web.buildBinarySTL t px W H).tris =
      Web.cellList t px W H ++ Web.sideX t px W H ++ Web.sideY t px W H := rfl

theorem web_countField_eq (t : List ℝ) (px : ℝ) (W H : ℕ) :
    (Web.buildBinarySTL t px W H).countField =
      (Web.buildBinarySTL t px W H).tris.length % 2 ^ 32 := rfl

theorem web_byteLength_eq (t : List ℝ) (px : ℝ) (W H : ℕ) :
    (Web.buildBinarySTL t px W H).byteLength =
      84 + 50 * (Web.buildBinarySTL t px W H).tris.length := rfl

theorem web_tris_length (t : List ℝ) (px : ℝ) (W H : ℕ) :
    (Web.buildBinarySTL t px W H).tris.length =
      4 * (W - 1) * (H - 1) + 4 * (W - 1) + 4 * (H - 1) := by
  rw [web_tris_eq]
  simp only [List.length_append]
  rw [cellList_length, sideX_length, sideY_length]
  ring

/-- C2 counterexample: at W = H = 32770 the triangle count
4295491596 does not fit in the unsigned 32-bit field written by
`setUint32`, so the serialized count field (524300 after reduction
modulo 2 ^ 32) differs from the formula the claim asserts, although
the thickness field has the required length W * H. -/
theorem claim2_counterexample :
    (List.replicate (32770 * 32770) (0 : ℝ)).length = 32770 * 32770 ∧
    (App.buildBinarySTL (List.replicate (32770 * 32770) (0 : ℝ)) 1 32770
        32770).countField ≠
      4 * (32770 - 1) * (32770 - 1) + 4 * (32770 - 1) + 4 * (32770 - 1) := by
  refine ⟨List.length_replicate _ _, ?_⟩
  rw [app_countField_eq]
  norm_num

/-- C2 amended: for every W ≥ 2, H ≥ 2 and thickness field of length
W * H, the number of emitted 50-byte records is
4(W-1)(H-1) + 4(W-1) + 4(H-1) and the byte stream has length
84 + 50 times that count; the 32-bit field holds the count reduced
modulo 2 ^ 32, so it equals the count exactly when the count is
below 2 ^ 32. -/
theorem claim2_amended (t : List ℝ) (px : ℝ) (W H : ℕ) (hW : 2 ≤ W) (hH : 2 ≤ H)
    (hlen : t.length = W * H) :
    (App.buildBinarySTL t px W H).countField =
      (4 * (W - 1) * (H - 1) + 4 * (W - 1) + 4 * (H - 1)) % 2 ^ 32 ∧
    (App.buildBinarySTL t px W H).tris.length =
      4 * (W - 1) * (H - 1) + 4 * (W - 1) + 4 * (H - 1) ∧
    (App.buildBinarySTL t px W H).byteLength =
      84 + 50 * (4 * (W - 1) * (H - 1) + 4 * (W - 1) + 4 * (H - 1)) ∧
    (4 * (W - 1) * (H - 1) + 4 * (W - 1) + 4 * (H - 1) < 2 ^ 32 →
      (App.buildBinarySTL t px W H).countField =
        4 * (W - 1) * (H - 1) + 4 * (W - 1) + 4 * (H - 1)) := by
  refine ⟨?_, app_tris_length t px W H, ?_, ?_⟩
  · rw [app_countField_eq, app_formula_eq]
  · rw [app_byteLength_eq, app_formula_eq]
    ring
  · intro hfit
    rw [app_countField_eq, app_formula_eq]
    exact Nat.mod_eq_of_lt hfit

/-- C2 witness: the amended statement instantiated on a 2 x 2 field. -/
theorem claim2_witness :
    2 ≤ 2 ∧ ([(0 : ℝ), 0, 0, 0]).length = 2 * 2 ∧
    ((App.buildBinarySTL [(0 : ℝ), 0, 0, 0] 1 2 2).countField =
        (4 * (2 - 1) * (2 - 1) + 4 * (2 - 1) + 4 * (2 - 1)) % 2 ^ 32 ∧
      (App.buildBinarySTL [(0 : ℝ), 0, 0, 0] 1 2 2).tris.length =
        4 * (2 - 1) * (2 - 1) + 4 * (2 - 1) + 4 * (2 - 1) ∧
      (App.buildBinarySTL [(0 : ℝ), 0, 0, 0] 1 2 2).byteLength =
        84 + 50 * (4 * (2 - 1) * (2 - 1) + 4 * (2 - 1) + 4 * (2 - 1)) ∧
      (4 * (2 - 1) * (2 - 1) + 4 * (2 - 1) + 4 * (2 - 1) < 2 ^ 32 →
        (App.buildBinarySTL [(0 : ℝ), 0, 0, 0] 1 2 2).countField =
          4 * (2 - 1) * (2 - 1) + 4 * (2 - 1) + 4 * (2 - 1))) :=
  ⟨le_refl 2, rfl, claim2_amended [(0 : ℝ), 0, 0, 0] 1 2 2 (le_refl 2) (le_refl 2) rfl⟩

/-! Degenerate-dimension behaviour of the app.js serializer. -/

theorem app_tris_W1 (t : List ℝ) (px : ℝ) (H : ℕ) :
    (App.buildBinarySTL t px 1 H).tris =
      App.edgeX0 t px 1 H ++ App.edgeXW t px 1 H := by
  rw [app_tris_eq]
  unfold App.topList App.bottomList App.edgeY0 App.edgeYH
  simp [flatMap_const_nil]

theorem app_tris_H1 (t : List ℝ) (px : ℝ) (W : ℕ) :
    (App.buildBinarySTL t px W 1).tris =
      App.edgeY0 t px W ++ App.edgeYH t px W 1 := by
  rw [app_tris_eq]
  unfold App.topList App.bottomList App.edgeX0 App.edgeXW
  simp [flatMap_const_nil]

theorem app_realZ_W1 (t : List ℝ) (px : ℝ) (H : ℕ) (hlen : t.length = 1 * H) :
    ∀ tr ∈ (App.buildBinarySTL t px 1 H).tris, Tri.realZ tr = true := by
  intro tr htr
  have hl : t.length = H := by rw [hlen, one_mul]
  rw [app_tris_W1, List.mem_append] at htr
  rcases htr with h | h
  · unfold App.edgeX0 at h
    rw [List.mem_flatMap] at h
    obtain ⟨y, hy, h⟩ := h
    rw [List.mem_range] at hy
    have h1 : (t[y + 1]?).isSome = true := getElem?_isSome_of_lt (by omega)
    have h2 : (t[y]?).isSome = true := getElem?_isSome_of_lt (by omega)
    simp only [List.mem_cons, List.not_mem_nil, or_false] at h
    rcases h with h | h <;> subst h <;> simp [Tri.realZ, vzTop, h1, h2]
  · unfold App.edgeXW at h
    rw [List.mem_flatMap] at h
    obtain ⟨y, hy, h⟩ := h
    rw [List.mem_range] at hy
    have h1 : (t[y + 1]?).isSome = true := getElem?_isSome_of_lt (by omega)
    have h2 : (t[y]?).isSome = true := getElem?_isSome_of_lt (by omega)
    simp only [List.mem_cons, List.not_mem_nil, or_false] at h
    rcases h with h | h <;> subst h <;> simp [Tri.realZ, vzTop, h1, h2]

theorem app_realZ_H1 (t : List ℝ) (px : ℝ) (W : ℕ) (hlen : t.length = W * 1) :
    ∀ tr ∈ (App.buildBinarySTL t px W 1).tris, Tri.realZ tr = true := by
  intro tr htr
  have hl : t.length = W := by rw [hlen, mul_one]
  rw [app_tris_H1, List.mem_append] at htr
  rcases htr with h | h
  · unfold App.edgeY0 at h
    rw [List.mem_flatMap] at h
    obtain ⟨x, hx, h⟩ := h
    rw [List.mem_range] at hx
    have h1 : (t[x]?).isSome = true := getElem?_isSome_of_lt (by omega)
    have h2 : (t[x + 1]?).isSome = true := getElem?_isSome_of_lt (by omega)
    simp only [List.mem_cons, List.not_mem_nil, or_false] at h
    rcases h with h | h <;> subst h <;> simp [Tri.realZ, vzTop, h1, h2]
  · unfold App.edgeYH at h
    rw [List.mem_flatMap] at h
    obtain ⟨x, hx, h⟩ := h
    rw [List.mem_range] at hx
    have h1 : (t[x]?).isSome = true := getElem?_isSome_of_lt (by omega)
    have h2 : (t[x + 1]?).isSome = true := getElem?_isSome_of_lt (by omega)
    simp only [List.mem_cons, List.not_mem_nil, or_false] at h
    rcases h with h | h <;> subst h <;> simp [Tri.realZ, vzTop, h1, h2]

/-- C3 counterexample: for the 1 x 2 thickness field [1, 2] the
app.js serializer does not return a header-only 84-byte stream: it
emits 4 degenerate wall triangles, writes 4 into the count field and
returns 284 bytes. -/
theorem claim3_counterexample :
    ([(1 : ℝ), 2]).length = 1 * 2 ∧
    (App.buildBinarySTL [(1 : ℝ), 2] 1 1 2).byteLength = 284 ∧
    (App.buildBinarySTL [(1 : ℝ), 2] 1 1 2).countField = 4 ∧
    (App.buildBinarySTL [(1 : ℝ), 2] 1 1 2).tris.length = 4 ∧
    (284 : ℕ) ≠ 84 := by
  refine ⟨rfl, ?_, ?_, ?_, by norm_num⟩
  · rw [app_byteLength_eq]
  · rw [app_countField_eq]
    decide
  · rw [app_tris_length]

/-- C3 amended: for W = 1 or H = 1 (other dimension at least 1) the
app.js serializer returns, without error, a stream with no top or
bottom triangles but with 4(W-1) + 4(H-1) degenerate wall triangles:
byte length 84 + 50(4(W-1) + 4(H-1)) and that count (mod 2 ^ 32) in
the count field; the stream is header-only with zero triangles
exactly when W = 1 and H = 1; no division occurs and every z
coordinate comes from an in-range thickness read (no NaN) when the
field has length W * H. -/
theorem claim3_amended (t : List ℝ) (px : ℝ) (W H : ℕ)
    (hdeg : W = 1 ∨ H = 1) (hW : 1 ≤ W) (hH : 1 ≤ H) (hlen : t.length = W * H) :
    (App.buildBinarySTL t px W H).tris.length = 4 * (W - 1) + 4 * (H - 1) ∧
    (App.buildBinarySTL t px W H).byteLength =
      84 + 50 * (4 * (W - 1) + 4 * (H - 1)) ∧
    (App.buildBinarySTL t px W H).countField =
      (4 * (W - 1) + 4 * (H - 1)) % 2 ^ 32 ∧
    (∀ tr ∈ (App.buildBinarySTL t px W H).tris, Tri.realZ tr = true) ∧
    (W = 1 ∧ H = 1 → (App.buildBinarySTL t px W H).byteLength = 84 ∧
      (App.buildBinarySTL t px W H).countField = 0 ∧
      (App.buildBinarySTL t px W H).tris = []) := by
  have hz : ∀ tr ∈ (App.buildBinarySTL t px W H).tris, Tri.realZ tr = true := by
    rcases hdeg with h | h
    · subst h
      exact app_realZ_W1 t px H hlen
    · subst h
      exact app_realZ_H1 t px W hlen
  refine ⟨?_, ?_, ?_, hz, ?_⟩
  · rw [app_tris_length]
    rcases hdeg with h | h <;> subst h <;> omega
  · rw [app_byteLength_eq]
    rcases hdeg with h | h <;> subst h <;> omega
  · rw [app_countField_eq]
    rcases hdeg with h | h <;> subst h <;> congr 1 <;> omega
  · rintro ⟨h1, h2⟩
    subst h1
    subst h2
    refine ⟨rfl, rfl, ?_⟩
    rw [app_tris_W1]
    unfold App.edgeX0 App.edgeXW
    simp

/-- C3 witness: the amended statement on the concrete 1 x 2 field. -/
theorem claim3_witness :
    ((1 : ℕ) = 1 ∨ (2 : ℕ) = 1) ∧ 1 ≤ 1 ∧ 1 ≤ 2 ∧ ([(5 : ℝ), 6]).length = 1 * 2 ∧
    ((App.buildBinarySTL [(5 : ℝ), 6] 1 1 2).tris.length =
        4 * (1 - 1) + 4 * (2 - 1) ∧
      (App.buildBinarySTL [(5 : ℝ), 6] 1 1 2).byteLength =
        84 + 50 * (4 * (1 - 1) + 4 * (2 - 1)) ∧
      (App.buildBinarySTL [(5 : ℝ), 6] 1 1 2).countField =
        (4 * (1 - 1) + 4 * (2 - 1)) % 2 ^ 32 ∧
      (∀ tr ∈ (App.buildBinarySTL [(5 : ℝ), 6] 1 1 2).tris, Tri.realZ tr = true) ∧
      ((1 : ℕ) = 1 ∧ (2 : ℕ) = 1 →
        (App.buildBinarySTL [(5 : ℝ), 6] 1 1 2).byteLength = 84 ∧
        (App.buildBinarySTL [(5 : ℝ), 6] 1 1 2).countField = 0 ∧
        (App.buildBinarySTL [(5 : ℝ), 6] 1 1 2).tris = [])) :=
  ⟨Or.inl rfl, le_refl 1, by norm_num, rfl,
    claim3_amended [(5 : ℝ), 6] 1 1 2 (Or.inl rfl) (le_refl 1) (by norm_num) rfl⟩

/-- C9 counterexample: with W = H = 2 and a thickness field of length
3 (not W * H = 4) the serializer raises no error and returns a
complete stream: 12 triangle records, 684 bytes, count field 12 —
contradicting the claim that it fails with InvalidDimensions before
producing any output. -/
theorem claim9_counterexample :
    ([(0 : ℝ), 0, 0]).length ≠ 2 * 2 ∧
    (App.buildBinarySTL [(0 : ℝ), 0, 0] 1 2 2).tris.length = 12 ∧
    (App.buildBinarySTL [(0 : ℝ), 0, 0] 1 2 2).byteLength = 84 + 50 * 12 ∧
    (App.buildBinarySTL [(0 : ℝ), 0, 0] 1 2 2).countField = 12 := by
  refine ⟨by norm_num, ?_, ?_, ?_⟩
  · rw [app_tris_length]
  · rw [app_byteLength_eq]
  · rw [app_countField_eq]
    decide

/-- C9 amended: the serializer performs no validation and defines no
InvalidDimensions error: for every W ≥ 1, H ≥ 1 and every thickness
field, regardless of its length, it returns a complete byte stream of
84 + 50 T bytes containing T = 4(W-1)(H-1) + 4(W-1) + 4(H-1) triangle
records, out-of-range thickness reads appearing as undefined (NaN) z
coordinates. -/
theorem claim9_amended (t : List ℝ) (px : ℝ) (W H : ℕ) (hW : 1 ≤ W) (hH : 1 ≤ H) :
    (App.buildBinarySTL t px W H).tris.length =
      4 * (W - 1) * (H - 1) + 4 * (W - 1) + 4 * (H - 1) ∧
    (App.buildBinarySTL t px W H).byteLength =
      84 + 50 * (4 * (W - 1) * (H - 1) + 4 * (W - 1) + 4 * (H - 1)) ∧
    (App.buildBinarySTL t px W H).countField =
      (4 * (W - 1) * (H - 1) + 4 * (W - 1) + 4 * (H - 1)) % 2 ^ 32 := by
  refine ⟨app_tris_length t px W H, ?_, ?_⟩
  · rw [app_byteLength_eq, app_formula_eq]
    ring
  · rw [app_countField_eq, app_formula_eq]

/-- C9 witness: the amended statement on the length-3 field that the
original claim said must be rejected. -/
theorem claim9_witness :
    1 ≤ 2 ∧
    ((App.buildBinarySTL [(0 : ℝ), 0, 0] 1 2 2).tris.length =
        4 * (2 - 1) * (2 - 1) + 4 * (2 - 1) + 4 * (2 - 1) ∧
      (App.buildBinarySTL [(0 : ℝ), 0, 0] 1 2 2).byteLength =
        84 + 50 * (4 * (2 - 1) * (2 - 1) + 4 * (2 - 1) + 4 * (2 - 1)) ∧
      (App.buildBinarySTL [(0 : ℝ), 0, 0] 1 2 2).countField =
        (4 * (2 - 1) * (2 - 1) + 4 * (2 - 1) + 4 * (2 - 1)) % 2 ^ 32) :=
  ⟨by norm_num, claim9_amended [(0 : ℝ), 0, 0] 1 2 2 (by norm_num) (by norm_num)⟩

/-- C10 counterexample: at W = H = 32770 the part_000 variant's count
field also wraps modulo 2 ^ 32 and cannot equal the record-count
formula asserted by the claim. -/
theorem claim10_counterexample :
    (List.replicate (32770 * 32770) (0 : ℝ)).length = 32770 * 32770 ∧
    (Web.buildBinarySTL (List.replicate (32770 * 32770) (0 : ℝ)) 1 32770
        32770).countField ≠
      4 * (32770 - 1) * (32770 - 1) + 4 * (32770 - 1) + 4 * (32770 - 1) := by
  refine ⟨List.length_replicate _ _, ?_⟩
  rw [web_countField_eq, web_tris_length]
  norm_num

/-- C10 amended: for every W ≥ 2, H ≥ 2, pxMm and thickness field of
length W * H the two serializer variants produce byte streams of
identical total length and identical count fields, each containing
T = 4(W-1)(H-1) + 4(W-1) + 4(H-1) records of 50 bytes after the
84-byte prefix; the shared count field equals T modulo 2 ^ 32 and
hence equals T whenever T < 2 ^ 32. -/
theorem claim10_amended (t : List ℝ) (px : ℝ) (W H : ℕ) (hW : 2 ≤ W) (hH : 2 ≤ H)
    (hlen : t.length = W * H) :
    (App.buildBinarySTL t px W H).byteLength =
      (Web.buildBinarySTL t px W H).byteLength ∧
    (App.buildBinarySTL t px W H).countField =
      (Web.buildBinarySTL t px W H).countField ∧
    (App.buildBinarySTL t px W H).tris.length =
      4 * (W - 1) * (H - 1) + 4 * (W - 1) + 4 * (H - 1) ∧
    (Web.buildBinarySTL t px W H).tris.length =
      4 * (W - 1) * (H - 1) + 4 * (W - 1) + 4 * (H - 1) ∧
    (4 * (W - 1) * (H - 1) + 4 * (W - 1) + 4 * (H - 1) < 2 ^ 32 →
      (App.buildBinarySTL t px W H).countField =
        4 * (W - 1) * (H - 1) + 4 * (W - 1) + 4 * (H - 1)) := by
  refine ⟨?_, ?_, app_tris_length t px W H, web_tris_length t px W H, ?_⟩
  · rw [app_byteLength_eq, web_byteLength_eq, web_tris_length, app_formula_eq]
    ring
  · rw [app_countField_eq, web_countField_eq, web_tris_length, app_formula_eq]
  · intro hfit
    rw [app_countField_eq, app_formula_eq]
    exact Nat.mod_eq_of_lt hfit

/-- C10 witness: the amended statement on a concrete 2 x 2 field. -/
theorem claim10_witness :
    2 ≤ 2 ∧ ([(1 : ℝ), 2, 3, 4]).length = 2 * 2 ∧
    ((App.buildBinarySTL [(1 : ℝ), 2, 3, 4] 1 2 2).byteLength =
        (Web.buildBinarySTL [(1 : ℝ), 2, 3, 4] 1 2 2).byteLength ∧
      (App.buildBinarySTL [(1 : ℝ), 2, 3, 4] 1 2 2).countField =
        (Web.buildBinarySTL [(1 : ℝ), 2, 3, 4] 1 2 2).countField ∧
      (App.buildBinarySTL [(1 : ℝ), 2, 3, 4] 1 2 2).tris.length =
        4 * (2 - 1) * (2 - 1) + 4 * (2 - 1) + 4 * (2 - 1) ∧
      (Web.buildBinarySTL [(1 : ℝ), 2, 3, 4] 1 2 2).tris.length =
        4 * (2 - 1) * (2 - 1) + 4 * (2 - 1) + 4 * (2 - 1) ∧
      (4 * (2 - 1) * (2 - 1) + 4 * (2 - 1) + 4 * (2 - 1) < 2 ^ 32 →
        (App.buildBinarySTL [(1 : ℝ), 2, 3, 4] 1 2 2).countField =
          4 * (2 - 1) * (2 - 1) + 4 * (2 - 1) + 4 * (2 - 1))) :=
  ⟨le_refl 2, rfl,
    claim10_amended [(1 : ℝ), 2, 3, 4] 1 2 2 (le_refl 2) (le_refl 2) rfl⟩

end JpegToRelief
